import Mathlib

/-!
Verification of the course deduplication and enrollment pipeline of
`udemy-autocoupons` against its specification.

The Python sources are shallowly embedded: frozen dataclasses become
inductive types, the set-like `CoursesStore` becomes a structure over
lists (dict keys are unique and sets are duplicate-free, so list
membership models `in` and `List.filter` models key/element removal),
and code that can raise becomes `Except`-valued.  Python exceptions that
the claims touch (`TypeError`, `RuntimeError`, `AttributeError`, and the
repository's own `ConsecutiveErrors`) are collected in one error type.
-/

namespace UA

/-- The Python exceptions relevant to the embedded code paths. -/
inductive Exc where
  | typeError
  | runtimeError
  | attributeError
  | consecutiveErrors
  deriving DecidableEq, Repr

/-- Embeds `udemy_course.py`'s two concrete frozen dataclasses.

`CourseWithAnyCoupon` declares `coupon: None = field(default=None)` and
`any_coupon: Literal[True] = field(default=True)`, so its only free field
is `url_id`; `CourseWithCoupon` declares `coupon: str | None` and
`any_coupon: Literal[False] = field(default=False)`.  Dataclass equality
and hashing compare all three declared fields, which matches structural
equality of this inductive type. -/
inductive Course where
  | anyCoupon (url_id : String)
  | withCoupon (url_id : String) (coupon : Option String)
  deriving DecidableEq, Repr

namespace Course

/-- The `url_id` attribute (declared on `_UdemyCourse`). -/
def url_id : Course → String
  | .anyCoupon u => u
  | .withCoupon u _ => u

/-- The `any_coupon` attribute: `True` on `CourseWithAnyCoupon`,
`False` on `CourseWithCoupon`. -/
def any_coupon : Course → Bool
  | .anyCoupon _ => true
  | .withCoupon _ _ => false

/-- The `coupon` attribute: always `None` on `CourseWithAnyCoupon`. -/
def coupon : Course → Option String
  | .anyCoupon _ => none
  | .withCoupon _ c => c

/-- `CourseWithCoupon.with_any_coupon` (udemy_course.py lines 152-159):
a `CourseWithAnyCoupon` with the same `url_id`. -/
def with_any_coupon (c : Course) : Course := .anyCoupon c.url_id

end Course

/-- Embeds `CoursesStore` (courses_store.py): `_any_coupon` is a dict
keyed by `url_id` whose value is always the `CourseWithAnyCoupon` with
that very `url_id` (see `_add`), so the key list determines it;
`_specific_coupon` is a set of `CourseWithCoupon`.  Dict keys are unique
and set elements are distinct, so both are modelled as lists queried by
membership.  The `RLock` only serializes mutations and has no sequential
content, so it is not modelled. -/
structure CoursesStore where
  any_coupon : List String
  specific_coupon : List Course
  deriving DecidableEq, Repr

namespace CoursesStore

/-- The store produced by `CoursesStore()` with no arguments. -/
def empty : CoursesStore := ⟨[], []⟩

/-- Embeds `CoursesStore.__contains__` (lines 38-43):
`True` if `course.url_id in self._any_coupon`; otherwise
`False if course.any_coupon else course in self._specific_coupon`. -/
def contains (s : CoursesStore) (c : Course) : Bool :=
  if s.any_coupon.contains c.url_id then true
  else if c.any_coupon then false
  else s.specific_coupon.contains c

/-- Embeds `CoursesStore._add` (lines 132-142), which `add` wraps in the
lock: early-return when `course in self`; otherwise route to the
any-coupon dict (`self._any_coupon[course.url_id] = course`, a fresh key
since containment failed) or to the specific set.  Both routes reach the
insert only when the element is absent, so appending preserves key
uniqueness / set distinctness. -/
def add (s : CoursesStore) (c : Course) : CoursesStore :=
  if s.contains c then s
  else
    match c with
    | .anyCoupon u => { s with any_coupon := s.any_coupon ++ [u] }
    | .withCoupon _ _ => { s with specific_coupon := s.specific_coupon ++ [c] }

/-- Embeds `CoursesStore._discard` (lines 144-151), which `discard`
wraps in the lock.  The Python is

  if is_with_any_coupon(course) and course.url_id in self._any_coupon:
      self._any_coupon.pop(course.url_id)
  elif is_with_specific_coupon(course):
      self._specific_coupon.discard(course)
  else:
      raise TypeError

so an any-coupon course whose `url_id` is absent falls through both
guards (it is not a specific-coupon course either) and raises
`TypeError`.  `dict.pop(key)` / `set.discard(element)` remove the unique
occurrence, modelled by `List.filter`. -/
def discard (s : CoursesStore) (c : Course) : Except Exc CoursesStore :=
  match c with
  | .anyCoupon u =>
      if s.any_coupon.contains u then
        .ok { s with any_coupon := s.any_coupon.filter (fun k => k ≠ u) }
      else .error .typeError
  | .withCoupon _ _ =>
      .ok { s with specific_coupon := s.specific_coupon.filter (fun x => x ≠ c) }

/-- Embeds the loop body of `CoursesStore.optimize` (lines 88-93):

  for specific_coupon in self._specific_coupon:
      if specific_coupon.url_id in self._any_coupon:
          self._specific_coupon.remove(specific_coupon)

CPython's set iterator raises `RuntimeError: Set changed size during
iteration` on the `next()` that follows any removal, including the one
that would otherwise end the loop, so the first covered element makes
the loop raise; if no element is covered the iteration completes with
the set unchanged. -/
def optimizeGo (keys : List String) : List Course → Except Exc Unit
  | [] => .ok ()
  | c :: rest =>
      if keys.contains c.url_id then .error .runtimeError
      else optimizeGo keys rest

/-- Embeds `CoursesStore.optimize` (lines 88-93); see `optimizeGo`.
When the iteration completes, no element was removed, so the store is
returned unchanged. -/
def optimize (s : CoursesStore) : Except Exc CoursesStore :=
  (optimizeGo s.any_coupon s.specific_coupon).map (fun _ => s)

end CoursesStore

/-- An element of the compressed representation
(`create_compressed` / `load_compressed`): either a bare `url_id`
string (a dict key of `_any_coupon`) or the `dataclasses.astuple` of a
member of `_specific_coupon`, i.e. the tuple
`(url_id, coupon, any_coupon)` of its declared fields — the third
component is the `any_coupon` field, `False` for every
`CourseWithCoupon`. -/
inductive Entry where
  | bare (url_id : String)
  | tup (url_id : String) (coupon : Option String) (any_flag : Bool)
  deriving DecidableEq, Repr

namespace CoursesStore

/-- Embeds `CoursesStore.create_compressed` (lines 95-112): optimizes
the store (propagating anything `optimize` raises), then returns the
tuple of `_any_coupon` keys followed by the `astuple`s of
`_specific_coupon`, together with the post-call store (the optimization
is an in-place side effect). -/
def create_compressed (s : CoursesStore) :
    Except Exc (CoursesStore × List Entry) := do
  let s ← s.optimize
  .ok (s, s.any_coupon.map .bare
        ++ s.specific_coupon.map (fun c => .tup c.url_id c.coupon c.any_coupon))

/-- Embeds `CoursesStore.load_compressed` (lines 114-130): each string
becomes `_add(CourseWithAnyCoupon(x))`, each tuple becomes
`_add(CourseWithCoupon(*x))` — the constructor receives the tuple's
`url_id`, `coupon` and `any_coupon` components, the last being the
(declared-`False`) flag field of the rebuilt `CourseWithCoupon`. -/
def load_compressed (s : CoursesStore) (compressed : List Entry) :
    CoursesStore :=
  compressed.foldl
    (fun acc e =>
      match e with
      | .bare u => acc.add (.anyCoupon u)
      | .tup u c _ => acc.add (.withCoupon u c))
    s

end CoursesStore

/-! ### URL parsing (`udemy_course.py`) -/

/-- Splits a character list at the first occurrence of `ch`:
the part before it, and `some` of the part after it (or `none` when
`ch` does not occur). -/
def breakAt (ch : Char) : List Char → List Char × Option (List Char)
  | [] => ([], none)
  | c :: rest =>
      if c = ch then ([], some rest)
      else
        let r := breakAt ch rest
        (c :: r.1, r.2)

/-- Helper for `splitOnChar`, carrying the current field in reverse. -/
def splitOnCharGo (ch : Char) : List Char → List Char → List (List Char)
  | [], acc => [acc.reverse]
  | c :: rest, acc =>
      if c = ch then acc.reverse :: splitOnCharGo ch rest []
      else splitOnCharGo ch rest (c :: acc)

/-- Python's `str.split(sep)` for a one-character separator:
`"a&&b".split("&") == ["a", "", "b"]` and `"".split("&") == [""]`. -/
def splitOnChar (ch : Char) (l : List Char) : List (List Char) :=
  splitOnCharGo ch l []

/-- A character the stdlib accepts inside a URL scheme. -/
def isSchemeChar (c : Char) : Bool :=
  c.isAlphanum || c = '+' || c = '-' || c = '.'

/-- Modelled from the scheme step of `urllib.parse.urlsplit`: when the
text before the first `:` is nonempty, starts with a letter and
consists of scheme characters, it is the (lowercased) scheme. -/
def splitScheme (l : List Char) : String × List Char :=
  match breakAt ':' l with
  | (pre, some post) =>
      if pre ≠ [] ∧ (pre.headD 'a').isAlpha = true ∧ pre.all isSchemeChar = true
      then ((pre.map Char.toLower).asString, post)
      else ("", l)
  | (_, none) => ("", l)

/-- Modelled from the stdlib: `urllib.parse.urlsplit` restricted to
URLs without percent-escapes or bracketed IPv6 hosts (the stdlib's
`ValueError` cases, which `from_url` catches, cannot arise on this
subset, so the model is total).  Returns
`(scheme, netloc, path, query, fragment)`: the scheme is split off
first, then the fragment after the first `#`, then the netloc after a
leading `//` up to the next `/` or `?`, then the query after the first
`?`. -/
def urlsplit (url : String) : String × String × String × String × String :=
  let l := url.data
  let sr := splitScheme l
  let scheme := sr.1
  let fr := breakAt '#' sr.2
  let fragment := (fr.2.getD []).asString
  let nr :=
    if fr.1.take 2 = ['/', '/'] then
      let rest := fr.1.drop 2
      let net := rest.takeWhile (fun c => c ≠ '/' ∧ c ≠ '?')
      (net.asString, rest.drop net.length)
    else ("", fr.1)
  let pr := breakAt '?' nr.2
  (scheme, nr.1, pr.1.asString, (pr.2.getD []).asString, fragment)

/-- Modelled from the stdlib: `urllib.parse.parse_qsl` with
`strict_parsing=True` and default `keep_blank_values=False`, restricted
to queries without percent-escapes or `+` (so no unquoting occurs).
An empty query yields `[]`; otherwise each `&`-separated field must
contain `=` (else the stdlib raises `ValueError`, modelled as `none`),
and fields with an empty value are dropped.  `parse_qs` groups this
list into a dict of value lists in first-occurrence order; `from_url`
only reads the first value of a key, so the flat pair list suffices. -/
def parse_qsl (qs : String) : Option (List (String × String)) :=
  if qs.data = [] then some []
  else
    (splitOnChar '&' qs.data).foldl
      (fun acc f =>
        match acc with
        | none => none
        | some l =>
            match breakAt '=' f with
            | (_, none) => none
            | (k, some v) =>
                if v = [] then some l else some (l ++ [(k.asString, v.asString)]))
      (some [])

/-- `query_params.get(key)` followed by `[0]`: the first value for the
key, i.e. the value of its first occurrence in the pair list. -/
def qsGet (l : List (String × String)) (k : String) : Option String :=
  (l.find? (fun p => p.1 = k)).map (fun p => p.2)

/-- `url.encode("ascii", "ignore").decode("ascii")`: drop every
non-ASCII character. -/
def asciiFilter (s : String) : String :=
  (s.data.filter (fun c => c.toNat < 128)).asString

/-- Embeds `_UdemyCourse.verify` (udemy_course.py lines 104-125):
the netloc is `udemy.com` or `www.udemy.com`, and the path starts with
`/course/` and is longer than 8 characters. -/
def verify (netloc path : String) : Bool :=
  (netloc = "udemy.com" || netloc = "www.udemy.com")
    && (path.data.take 8 = "/course/".data && decide (8 < path.data.length))

/-- Embeds `_UdemyCourse.from_url` with `any_coupon=False`
(udemy_course.py lines 61-102), the variant the queue bridge uses:
drop non-ASCII characters, split the URL, parse the query strictly
(`None` on failure), check `verify`, take the third `/`-separated path
component as `url_id`, and read the first `couponCode` query value as
the coupon. -/
def from_url (url : String) : Option Course :=
  let url := asciiFilter url
  let p := urlsplit url
  let netloc := p.2.1
  let path := p.2.2.1
  let query := p.2.2.2.1
  match parse_qsl query with
  | none => none
  | some qsl =>
      if verify netloc path then
        some (.withCoupon ((splitOnChar '/' path.data).getD 2 []).asString
          (qsGet qsl "couponCode"))
      else none

/-! ### Queue bridge (`queue_manager.py`) -/

/-- The recursion of `QueueManager._process_courses`
(queue_manager.py lines 73-83) over the URLs received before the
terminating `None`, with the `_seen` set threaded through: a URL that
parses is forwarded to the multiprocessing queue unless the parsed
course is a member of `seen`.  The loop body never inserts into
`_seen`, so the set is passed on unchanged. -/
def process_courses_go (seen : List Course) : List String → List Course
  | [] => []
  | u :: rest =>
      match from_url u with
      | some c =>
          if seen.contains c then process_courses_go seen rest
          else c :: process_courses_go seen rest
      | none => process_courses_go seen rest

/-- Embeds `QueueManager._process_courses` as started by `__init__`
(queue_manager.py lines 31-39): `_seen` is created as the empty set and,
as it is never added to, every membership test runs against the empty
set.  `__init__` takes no courses-store argument, so no store
participates.  Returns the courses forwarded to the multiprocessing
queue, in order. -/
def process_courses (urls : List String) : List Course :=
  process_courses_go [] urls

/-! ### Outcome state machine (`enroller/state.py`) -/

/-- Embeds the `State` enum exactly as declared in `enroller/state.py`
lines 7-15: seven members, none of them `TO_BLACKLIST`. -/
inductive State where
  | ENROLLABLE
  | ENROLLED
  | ERROR
  | FREE
  | IN_ACCOUNT
  | PAID
  | UNAVAILABLE
  deriving DecidableEq, Repr

/-- Attribute lookup on the `State` enum class: `getattr(State, name)`
returns the member when it exists and raises `AttributeError`
otherwise (modelled as `none`).  The cases are exactly the members
declared in `enroller/state.py`. -/
def stateMember : String → Option State
  | "ENROLLABLE" => some .ENROLLABLE
  | "ENROLLED" => some .ENROLLED
  | "ERROR" => some .ERROR
  | "FREE" => some .FREE
  | "IN_ACCOUNT" => some .IN_ACCOUNT
  | "PAID" => some .PAID
  | "UNAVAILABLE" => some .UNAVAILABLE
  | _ => none

/-- The members of `DoneOrErrorT = DoneT | Literal[State.ERROR]`
(enroller/state.py lines 18-25): the type of values
`UdemyDriver.enroll` may return according to the annotations. -/
def doneOrErrorMembers : List State :=
  [.ENROLLED, .FREE, .IN_ACCOUNT, .PAID, .UNAVAILABLE, .ERROR]

/-! ### Enroller (`enroller/enroller.py`)

The driver is the external backend: it is modelled as an oracle mapping
a course and the number of `enroll` calls already made for that course
to the `State` it returns.  Each invocation of `driver.enroll` is
recorded in a call trace so that claims about "no further Enroll calls"
are statable.  Exceptions thrown out of a handler propagate with the
mutations already applied to `self`, so every step returns the updated
state together with an optional exception. -/

/-- `Enroller._MAX_REATTEMPTS` (enroller.py line 23). -/
def MAX_REATTEMPTS : Nat := 2

/-- `Enroller._MAX_CONSECUTIVE_ERRORS` (enroller.py line 24). -/
def MAX_CONSECUTIVE_ERRORS : Nat := 3

/-- The mutable attributes of `Enroller` (enroller.py lines 41-51),
plus the trace of `driver.enroll` invocations. -/
structure Enroller where
  courses_store : CoursesStore
  errors : List Course
  enrolled_counter : Nat
  consecutive_errors : Nat
  attempts : List (Course × Nat)
  reattempt_queue : List Course
  enroll_calls : List Course
  deriving Repr

namespace Enroller

/-- `Enroller.__init__` with the given store. -/
def init (store : CoursesStore) : Enroller := ⟨store, [], 0, 0, [], [], []⟩

/-- `self._attempts[course]` on the `defaultdict(int)`: 0 when the key
is absent. -/
def getAttempts (m : List (Course × Nat)) (c : Course) : Nat :=
  ((m.find? (fun p => p.1 = c)).map (fun p => p.2)).getD 0

/-- `self._attempts[course] = v`: update the entry in place, or append
it (the `defaultdict` materializes absent keys on access). -/
def setAttempts (m : List (Course × Nat)) (c : Course) (v : Nat) :
    List (Course × Nat) :=
  if (m.find? (fun p => p.1 = c)).isSome then
    m.map (fun p => if p.1 = c then (c, v) else p)
  else m ++ [(c, v)]

/-- Embeds `Enroller._handle_error` (enroller.py lines 146-157):
increment the consecutive-error counter; above
`_MAX_CONSECUTIVE_ERRORS` append the course to the errors and raise
`ConsecutiveErrors`; otherwise either bump the attempt counter and
enqueue a reattempt (when below `_MAX_REATTEMPTS`) or record a final
error. -/
def handle_error (st : Enroller) (course : Course) : Enroller × Option Exc :=
  let st := { st with consecutive_errors := st.consecutive_errors + 1 }
  if MAX_CONSECUTIVE_ERRORS < st.consecutive_errors then
    ({ st with errors := st.errors ++ [course] }, some .consecutiveErrors)
  else if getAttempts st.attempts course < MAX_REATTEMPTS then
    ({ st with
        attempts := setAttempts st.attempts course
          (getAttempts st.attempts course + 1),
        reattempt_queue := st.reattempt_queue ++ [course] }, none)
  else
    ({ st with errors := st.errors ++ [course] }, none)

/-- Embeds `Enroller._handle_state` (enroller.py lines 123-144):
bump the enrolled counter on `ENROLLED`; reset the consecutive-error
counter on any non-`ERROR` state; then line 135 evaluates the set
display `{State.TO_BLACKLIST, State.PAID}`, which looks up the
attribute `TO_BLACKLIST` on `State` — absent from `enroller/state.py`,
so the lookup raises `AttributeError` (line 136 would only log).  Were
the member present, the remainder would add the any-coupon course on
`ENROLLED`/`TO_BLACKLIST`, add the course itself on `PAID`, and call
`_handle_error` otherwise. -/
def handle_state (st : Enroller) (course : Course) (state : State) :
    Enroller × Option Exc :=
  let st :=
    if state = .ENROLLED then
      { st with enrolled_counter := st.enrolled_counter + 1 }
    else st
  let st :=
    if state ≠ .ERROR then { st with consecutive_errors := 0 } else st
  match stateMember "TO_BLACKLIST" with
  | none => (st, some .attributeError)
  | some tb =>
      if state = .ENROLLED ∨ state = tb then
        ({ st with
            courses_store := st.courses_store.add course.with_any_coupon },
          none)
      else if state = .PAID then
        ({ st with courses_store := st.courses_store.add course }, none)
      else handle_error st course

/-- Embeds `Enroller._handle_enroll` (enroller.py lines 108-121): skip
the course if the store contains it; otherwise call
`self._driver.enroll(course)` (recorded in the trace, with the outcome
given by the oracle) and apply `_handle_state`. -/
def handle_enroll (driver : Course → Nat → State) (st : Enroller)
    (course : Course) : Enroller × Option Exc :=
  if st.courses_store.contains course then (st, none)
  else
    let state := driver course (st.enroll_calls.count course)
    let st := { st with enroll_calls := st.enroll_calls ++ [course] }
    handle_state st course state

/-- The first loop of `Enroller._enroll_from_queue` (enroller.py lines
90-92) over the queue contents that precede the terminating `None`:
handle each course in order until an exception stops the loop.
Returns the state, the exception if any, and the queue items not yet
pulled when the exception escaped. -/
def drainMain (driver : Course → Nat → State) (st : Enroller) :
    List Course → Enroller × Option Exc × List Course
  | [] => (st, none, [])
  | c :: rest =>
      match handle_enroll driver st c with
      | (st', none) => drainMain driver st' rest
      | (st', some e) => (st', some e, rest)

/-- In this revision `_handle_state` raises before it can reach
`_handle_error`, so `_handle_enroll` leaves the enroller unchanged
whenever it finishes without an exception (the course was already in
the store). -/
theorem handle_enroll_none (driver : Course → Nat → State) (st : Enroller)
    (c : Course) (h : (handle_enroll driver st c).2 = none) :
    (handle_enroll driver st c).1 = st := by
  unfold handle_enroll at *
  by_cases hc : st.courses_store.contains c
  · simp [hc]
  · simp only [hc, if_neg, Bool.false_eq_true, if_false] at h ⊢
    simp [handle_state, stateMember] at h

/-- The second loop of `Enroller._enroll_from_queue` (enroller.py lines
96-106): pop the oldest pending reattempt and handle it, until the
reattempt deque is empty or an exception stops the loop. -/
def drainReattempts (driver : Course → Nat → State) (st : Enroller) :
    Enroller × Option Exc :=
  match h : st.reattempt_queue with
  | [] => (st, none)
  | c :: rest =>
      match h2 : handle_enroll driver { st with reattempt_queue := rest } c with
      | (st', none) => drainReattempts driver st'
      | (st', some e) => (st', some e)
termination_by st.reattempt_queue.length
decreasing_by
  have hn : (handle_enroll driver { st with reattempt_queue := rest } c).2
      = none := by rw [h2]
  have h1 := handle_enroll_none driver { st with reattempt_queue := rest } c hn
  rw [h2] at h1
  simp only at h1
  rw [h1, h]
  simp

/-- Embeds `Enroller._enroll_from_queue` (enroller.py lines 83-106):
the main drain followed, when no exception escaped, by the reattempt
drain. -/
def enroll_from_queue_inner (driver : Course → Nat → State)
    (st : Enroller) (queue : List Course) :
    Enroller × Option Exc × List Course :=
  match drainMain driver st queue with
  | (st', some e, rest) => (st', some e, rest)
  | (st', none, _) =>
      let r := drainReattempts driver st'
      (r.1, r.2, [])

/-- Embeds `Enroller.enroll_from_queue` (enroller.py lines 53-81):
run `_enroll_from_queue`; on `ConsecutiveErrors` extend the errors with
the pending reattempts and then drain the rest of the multithreading
queue into the errors; any other exception propagates (only
`ConsecutiveErrors` is caught).  Returns the final enroller state and
the escaping exception, if any. -/
def enroll_from_queue (driver : Course → Nat → State) (st : Enroller)
    (queue : List Course) : Enroller × Option Exc :=
  match enroll_from_queue_inner driver st queue with
  | (st', none, _) => (st', none)
  | (st', some .consecutiveErrors, rest) =>
      ({ st' with errors := st'.errors ++ st'.reattempt_queue ++ rest }, none)
  | (st', some e, _) => (st', some e)

end Enroller

/-! ## Store lemmas -/

@[simp] theorem Course.url_id_anyCoupon (u : String) :
    (Course.anyCoupon u).url_id = u := rfl

@[simp] theorem Course.url_id_withCoupon (u : String) (cp : Option String) :
    (Course.withCoupon u cp).url_id = u := rfl

@[simp] theorem Course.any_coupon_anyCoupon (u : String) :
    (Course.anyCoupon u).any_coupon = true := rfl

@[simp] theorem Course.any_coupon_withCoupon (u : String)
    (cp : Option String) : (Course.withCoupon u cp).any_coupon = false := rfl

@[simp] theorem Course.coupon_anyCoupon (u : String) :
    (Course.anyCoupon u).coupon = none := rfl

@[simp] theorem Course.coupon_withCoupon (u : String) (cp : Option String) :
    (Course.withCoupon u cp).coupon = cp := rfl

namespace CoursesStore

/-- Characterization of `__contains__` by membership. -/
theorem contains_iff (s : CoursesStore) (x : Course) :
    s.contains x = true ↔
      x.url_id ∈ s.any_coupon ∨
        (x.any_coupon = false ∧ x ∈ s.specific_coupon) := by
  cases x with
  | anyCoupon u =>
      simp [CoursesStore.contains, Course.url_id, Course.any_coupon,
        List.contains]
  | withCoupon u c =>
      by_cases h1 : u ∈ s.any_coupon <;>
        simp [CoursesStore.contains, Course.url_id, Course.any_coupon,
          List.contains, h1]

/-- Adding an any-coupon course leaves the specific set unchanged. -/
theorem add_any_specific (s : CoursesStore) (u : String) :
    (s.add (.anyCoupon u)).specific_coupon = s.specific_coupon := by
  unfold CoursesStore.add
  split <;> rfl

/-- Key membership after adding an any-coupon course. -/
theorem add_any_any_mem (s : CoursesStore) (u v : String) :
    v ∈ (s.add (.anyCoupon u)).any_coupon ↔ v ∈ s.any_coupon ∨ v = u := by
  unfold CoursesStore.add
  by_cases h : s.contains (.anyCoupon u) = true
  · rw [if_pos h]
    rcases (contains_iff s (.anyCoupon u)).mp h with hm | ⟨hf, _⟩
    · constructor
      · exact fun hv => Or.inl hv
      · rintro (hv | rfl)
        · exact hv
        · exact hm
    · simp [Course.any_coupon] at hf
  · rw [if_neg h]
    simp

/-- Adding a specific-coupon course leaves the any-coupon keys
unchanged. -/
theorem add_with_any (s : CoursesStore) (u : String) (cp : Option String) :
    (s.add (.withCoupon u cp)).any_coupon = s.any_coupon := by
  unfold CoursesStore.add
  split <;> rfl

/-- Membership in the specific set after adding a specific-coupon
course. -/
theorem add_with_specific_mem (s : CoursesStore) (u : String)
    (cp : Option String) (x : Course) :
    x ∈ (s.add (.withCoupon u cp)).specific_coupon ↔
      x ∈ s.specific_coupon ∨
        (s.contains (.withCoupon u cp) = false ∧ x = .withCoupon u cp) := by
  unfold CoursesStore.add
  by_cases h : s.contains (.withCoupon u cp) = true
  · simp [h]
  · rw [if_neg h]
    simp only [Bool.not_eq_true] at h
    simp [h]

/-- The subsumption property: after adding the any-coupon course for
`u`, every specific identity with `url_id = u` is contained. -/
theorem contains_after_add_any (s : CoursesStore) (u : String)
    (c : Option String) :
    (s.add (.anyCoupon u)).contains (.withCoupon u c) = true := by
  apply (contains_iff _ _).mpr
  exact Or.inl ((add_any_any_mem s u u).mpr (Or.inr rfl))

/-- The optimize loop finishes (without removal, hence without raising)
when no specific entry is covered by an any-coupon key. -/
theorem optimizeGo_ok (keys : List String) (l : List Course)
    (h : ∀ c ∈ l, c.url_id ∉ keys) : optimizeGo keys l = .ok () := by
  induction l with
  | nil => rfl
  | cons c rest ih =>
      have hc : c.url_id ∉ keys := h c (List.mem_cons_self c rest)
      unfold optimizeGo
      rw [if_neg (by simpa [List.contains] using hc)]
      exact ih (fun d hd => h d (List.mem_cons_of_mem c hd))

/-- Loading a concatenation loads the parts in order. -/
theorem load_append (t : CoursesStore) (a b : List Entry) :
    t.load_compressed (a ++ b) = (t.load_compressed a).load_compressed b := by
  unfold load_compressed
  exact List.foldl_append ..

/-- Loading bare keys leaves the specific set unchanged. -/
theorem load_bares_specific (t : CoursesStore) (ids : List String) :
    (t.load_compressed (ids.map .bare)).specific_coupon
      = t.specific_coupon := by
  induction ids generalizing t with
  | nil => rfl
  | cons u rest ih =>
      show ((t.add (.anyCoupon u)).load_compressed
        (rest.map .bare)).specific_coupon = _
      rw [ih, add_any_specific]

/-- Key membership after loading bare keys. -/
theorem load_bares_any_mem (t : CoursesStore) (ids : List String)
    (u : String) :
    u ∈ (t.load_compressed (ids.map .bare)).any_coupon ↔
      u ∈ t.any_coupon ∨ u ∈ ids := by
  induction ids generalizing t with
  | nil => simp [load_compressed]
  | cons v rest ih =>
      show u ∈ ((t.add (.anyCoupon v)).load_compressed
        (rest.map .bare)).any_coupon ↔ _
      rw [ih, add_any_any_mem]
      simp [List.mem_cons]
      tauto

/-- Loading `astuple`s leaves the any-coupon keys unchanged. -/
theorem load_tups_any (t : CoursesStore) (cs : List Course) :
    (t.load_compressed
      (cs.map (fun c => Entry.tup c.url_id c.coupon c.any_coupon))).any_coupon
      = t.any_coupon := by
  induction cs generalizing t with
  | nil => rfl
  | cons c rest ih =>
      show ((t.add (.withCoupon c.url_id c.coupon)).load_compressed
        (rest.map _)).any_coupon = _
      rw [ih, add_with_any]

/-- Membership in the specific set after loading `astuple`s none of
which is covered by the target store's any-coupon keys. -/
theorem load_tups_specific_mem (t : CoursesStore) (cs : List Course)
    (hc : ∀ c ∈ cs, c.url_id ∉ t.any_coupon) (x : Course) :
    x ∈ (t.load_compressed
        (cs.map (fun c => Entry.tup c.url_id c.coupon c.any_coupon))).specific_coupon
      ↔ x ∈ t.specific_coupon ∨
          ∃ c ∈ cs, x = .withCoupon c.url_id c.coupon := by
  induction cs generalizing t with
  | nil => simp [load_compressed]
  | cons c0 rest ih =>
      have h0 : c0.url_id ∉ t.any_coupon := hc c0 (List.mem_cons_self c0 rest)
      have hrest : ∀ c ∈ rest,
          c.url_id ∉ (t.add (.withCoupon c0.url_id c0.coupon)).any_coupon := by
        rw [add_with_any]
        exact fun c hcm => hc c (List.mem_cons_of_mem c0 hcm)
      show x ∈ ((t.add (.withCoupon c0.url_id c0.coupon)).load_compressed
        (rest.map _)).specific_coupon ↔ _
      rw [ih _ hrest, add_with_specific_mem]
      have hiff2 : t.contains (.withCoupon c0.url_id c0.coupon) = true ↔
          Course.withCoupon c0.url_id c0.coupon ∈ t.specific_coupon := by
        rw [contains_iff]
        simp [h0]
      constructor
      · rintro ((hx | ⟨hf, rfl⟩) | ⟨c, hcm, rfl⟩)
        · exact Or.inl hx
        · exact Or.inr ⟨c0, List.mem_cons_self c0 rest, rfl⟩
        · exact Or.inr ⟨c, List.mem_cons_of_mem c0 hcm, rfl⟩
      · rintro (hx | ⟨c, hcm, rfl⟩)
        · exact Or.inl (Or.inl hx)
        · rcases List.mem_cons.mp hcm with hceq | hcm2
          · subst hceq
            by_cases hm : Course.withCoupon c.url_id c.coupon ∈ t.specific_coupon
            · exact Or.inl (Or.inl hm)
            · refine Or.inl (Or.inr ⟨?_, rfl⟩)
              cases hb : t.contains (.withCoupon c.url_id c.coupon) with
              | false => rfl
              | true => exact absurd (hiff2.mp hb) hm
          · exact Or.inr ⟨c, hcm2, rfl⟩

end CoursesStore

/-! ## Claims about the course store -/

/-- C1: for every store and course identity `x`, `contains x` holds iff
`x.url_id` has an any-coupon entry, or `x` is not any-coupon and the
specific pair is present; and after `add (anyCoupon u)` every specific
identity `(u, c)` is contained, for every coupon value `c`, without
ever being inserted. -/
theorem claim_C1 (s : CoursesStore) (x : Course) :
    (s.contains x = true ↔
      x.url_id ∈ s.any_coupon ∨
        (x.any_coupon = false ∧ x ∈ s.specific_coupon))
    ∧ ∀ (u : String) (c : Option String),
        (s.add (.anyCoupon u)).contains (.withCoupon u c) = true :=
  ⟨CoursesStore.contains_iff s x,
    fun u c => CoursesStore.contains_after_add_any s u c⟩

/-- C6: the claim says `optimize` terminates normally on every store and
removes each covered specific entry; on the store holding the any-coupon
key `"a"` and the specific entry `("a", "x")` the embedded loop instead
raises `RuntimeError` (CPython forbids removing from a set being
iterated), so compaction never completes. -/
theorem claim_C6 :
    (CoursesStore.mk ["a"] [.withCoupon "a" (some "x")]).optimize
      = .error .runtimeError := rfl

/-- C7 counterexample: `create_compressed` on a store holding the
any-coupon key `"a"` and the covered specific entry `("a", "x")` raises
`RuntimeError` out of its `optimize` call, so no compact representation
is produced for this store and the round-trip claim fails on it. -/
theorem claim_C7_cex :
    (CoursesStore.mk ["a"] [.withCoupon "a" (some "x")]).create_compressed
      = .error .runtimeError := rfl

/-- C7 (amended): for every store whose specific set holds only
specific-coupon identities (as its type declares) and in which no
specific entry's `url_id` is any-coupon-covered — so that the
compaction pass inside `create_compressed` finds nothing to remove and
terminates — loading the produced compact representation into a fresh
store yields a store whose `contains` agrees with the original on every
course identity. -/
theorem claim_C7 (s : CoursesStore)
    (hspec : ∀ c ∈ s.specific_coupon, c.any_coupon = false)
    (hcov : ∀ c ∈ s.specific_coupon, c.url_id ∉ s.any_coupon) :
    ∃ out, s.create_compressed = .ok (s, out) ∧
      ∀ x : Course,
        (CoursesStore.empty.load_compressed out).contains x
          = s.contains x := by
  have hopt : s.optimize = Except.ok s := by
    unfold CoursesStore.optimize
    rw [CoursesStore.optimizeGo_ok s.any_coupon s.specific_coupon hcov]
    rfl
  refine ⟨s.any_coupon.map .bare
      ++ s.specific_coupon.map
        (fun c => Entry.tup c.url_id c.coupon c.any_coupon), ?_, ?_⟩
  · unfold CoursesStore.create_compressed
    rw [hopt]
    rfl
  · intro x
    rw [CoursesStore.load_append]
    have ht1any : ∀ u, u ∈ (CoursesStore.empty.load_compressed
        (s.any_coupon.map .bare)).any_coupon ↔ u ∈ s.any_coupon := by
      intro u
      rw [CoursesStore.load_bares_any_mem]
      simp [CoursesStore.empty]
    have ht1spec : (CoursesStore.empty.load_compressed
        (s.any_coupon.map .bare)).specific_coupon = [] := by
      rw [CoursesStore.load_bares_specific]
      rfl
    have hc2 : ∀ c ∈ s.specific_coupon, c.url_id ∉
        (CoursesStore.empty.load_compressed
          (s.any_coupon.map .bare)).any_coupon := by
      intro c hcm
      rw [ht1any]
      exact hcov c hcm
    have hLany : ∀ u, u ∈ ((CoursesStore.empty.load_compressed
          (s.any_coupon.map .bare)).load_compressed
          (s.specific_coupon.map
            (fun c => Entry.tup c.url_id c.coupon c.any_coupon))).any_coupon
        ↔ u ∈ s.any_coupon := by
      intro u
      rw [CoursesStore.load_tups_any]
      exact ht1any u
    have hLspec : ∀ y, y ∈ ((CoursesStore.empty.load_compressed
          (s.any_coupon.map .bare)).load_compressed
          (s.specific_coupon.map
            (fun c => Entry.tup c.url_id c.coupon c.any_coupon))).specific_coupon
        ↔ y ∈ s.specific_coupon := by
      intro y
      rw [CoursesStore.load_tups_specific_mem _ _ hc2, ht1spec]
      simp only [List.not_mem_nil, false_or]
      constructor
      · rintro ⟨c, hcm, rfl⟩
        have hcf := hspec c hcm
        cases c with
        | anyCoupon u => simp at hcf
        | withCoupon u cp => simpa using hcm
      · intro hy
        refine ⟨y, hy, ?_⟩
        have hcf := hspec y hy
        cases y with
        | anyCoupon u => simp at hcf
        | withCoupon u cp => rfl
    rw [Bool.eq_iff_iff, CoursesStore.contains_iff, CoursesStore.contains_iff,
      hLany, hLspec]

/-- C7 witness: a concrete uncovered store satisfying the amended
hypotheses, with the round-trip conclusion instantiated there. -/
theorem claim_C7_witness :
    (∀ c ∈ (CoursesStore.mk ["a"]
        [Course.withCoupon "b" (some "x")]).specific_coupon,
      c.any_coupon = false)
    ∧ (∀ c ∈ (CoursesStore.mk ["a"]
        [Course.withCoupon "b" (some "x")]).specific_coupon,
      c.url_id ∉ (CoursesStore.mk ["a"]
        [Course.withCoupon "b" (some "x")]).any_coupon)
    ∧ ∃ out, (CoursesStore.mk ["a"]
          [Course.withCoupon "b" (some "x")]).create_compressed
        = .ok (CoursesStore.mk ["a"] [Course.withCoupon "b" (some "x")], out) ∧
        ∀ x : Course, (CoursesStore.empty.load_compressed out).contains x
          = (CoursesStore.mk ["a"]
              [Course.withCoupon "b" (some "x")]).contains x :=
  ⟨by decide, by decide,
    claim_C7 (CoursesStore.mk ["a"] [Course.withCoupon "b" (some "x")])
      (by decide) (by decide)⟩

/-- C8: the claim says a double `add` is observationally a single `add`
and that discarding an absent identity is a no-op; the code instead
raises `TypeError` when discarding an absent any-coupon identity (the
`elif is_with_specific_coupon` guard fails and control reaches
`raise TypeError`), here evaluated on the empty store. -/
theorem claim_C8 :
    CoursesStore.empty.discard (.anyCoupon "a") = .error .typeError := rfl

/-- C9: in the embedded (typed) course identities, an any-coupon course
carries no coupon — `CourseWithAnyCoupon` pins `coupon` to `None`, so a
value with `any_coupon = true` and a non-null coupon is not
constructible and every course with `any_coupon = true` has `coupon =
none`. -/
theorem claim_C9 (c : Course) (h : c.any_coupon = true) : c.coupon = none := by
  cases c with
  | anyCoupon u => rfl
  | withCoupon u cp => simp at h

/-- C9 witness: the invariant instantiated at a concrete identity. -/
theorem claim_C9_witness :
    (Course.anyCoupon "a").any_coupon = true
    ∧ (Course.anyCoupon "a").coupon = none :=
  ⟨rfl, claim_C9 (Course.anyCoupon "a") rfl⟩

/-- C10 counterexample: on the store holding any-coupon `"u"` AND the
specific entry `("u", "c")` (reachable: add the specific pair first,
the any-coupon entry second), adding `("u", "c")` is indeed a no-op,
but discarding the any-coupon entry leaves `contains ("u", "c")` true —
the pair was recorded before the cover existed — refuting the claim's
"Contains(x) is false" for this store. -/
theorem claim_C10_cex :
    (CoursesStore.mk ["u"] [.withCoupon "u" (some "c")]).add
        (.withCoupon "u" (some "c"))
      = CoursesStore.mk ["u"] [.withCoupon "u" (some "c")]
    ∧ (CoursesStore.mk ["u"] [.withCoupon "u" (some "c")]).discard
        (.anyCoupon "u")
      = .ok (CoursesStore.mk [] [.withCoupon "u" (some "c")])
    ∧ (CoursesStore.mk [] [.withCoupon "u" (some "c")]).contains
        (.withCoupon "u" (some "c")) = true :=
  ⟨rfl, rfl, rfl⟩

/-- C10 (amended): for every store whose any-coupon map covers `u` and
whose specific set does not already hold the pair `(u, cp)`:
`add (u, cp)` leaves the store entirely unchanged, and following it
with `discard (anyCoupon u)` yields a store in which
`contains (u, cp)` is false. -/
theorem claim_C10 (s : CoursesStore) (u : String) (cp : Option String)
    (hcov : u ∈ s.any_coupon)
    (habs : Course.withCoupon u cp ∉ s.specific_coupon) :
    s.add (.withCoupon u cp) = s
    ∧ ∃ s2, (s.add (.withCoupon u cp)).discard (.anyCoupon u) = .ok s2
        ∧ s2.contains (.withCoupon u cp) = false := by
  have hadd : s.add (.withCoupon u cp) = s := by
    unfold CoursesStore.add
    rw [if_pos ((CoursesStore.contains_iff s _).mpr (Or.inl (by simpa)))]
  refine ⟨hadd, ?_⟩
  rw [hadd]
  have hdisc : s.discard (.anyCoupon u)
      = .ok { s with any_coupon := s.any_coupon.filter (fun k => k ≠ u) } := by
    simp [CoursesStore.discard, List.contains, hcov]
  refine ⟨_, hdisc, ?_⟩
  rw [Bool.eq_false_iff]
  intro hcont
  rcases (CoursesStore.contains_iff _ _).mp hcont with hm | ⟨_, hm⟩
  · simp at hm
  · exact habs hm

/-! ## Claims about the enroller and the queue bridge -/

/-- C2: the claim says the outcome vocabulary is the closed four-tag set
(Enrolled, ToBlacklist, Paid, Error) and that an `Enrolled` outcome adds
the any-coupon entry for the course.  In the code, `DoneOrErrorT` has
six members and `State` has no `TO_BLACKLIST` member at all, so
`_handle_state` — which evaluates `{State.TO_BLACKLIST, State.PAID}` on
line 135 before any store mutation — raises `AttributeError` on every
outcome; here evaluated at `ENROLLED` on a fresh enroller: the store
stays empty instead of gaining the any-coupon entry. -/
theorem claim_C2 :
    (Enroller.handle_state (Enroller.init CoursesStore.empty)
        (.withCoupon "c0" (some "k")) .ENROLLED).2 = some .attributeError
    ∧ (Enroller.handle_state (Enroller.init CoursesStore.empty)
        (.withCoupon "c0" (some "k")) .ENROLLED).1.courses_store
      = CoursesStore.empty
    ∧ stateMember "TO_BLACKLIST" = none
    ∧ doneOrErrorMembers.length = 6 :=
  ⟨rfl, rfl, rfl, rfl⟩

/-- C3: the claim says that once 4 consecutive `Error` outcomes are
observed the loop terminates early and orderly, with every unattempted
queued item in the final error list and no further enroll calls.  On a
queue of five courses whose every enrollment attempt yields `ERROR`,
the run instead dies on the very first outcome: `_handle_state` raises
`AttributeError` (no `State.TO_BLACKLIST`), which `enroll_from_queue`
does not catch (only `ConsecutiveErrors` is), so the error list stays
empty, the four remaining courses are dropped, and only one enroll call
ever happens. -/
theorem claim_C3 :
    (Enroller.enroll_from_queue (fun _ _ => State.ERROR)
        (Enroller.init CoursesStore.empty)
        [.withCoupon "c0" none, .withCoupon "c1" none, .withCoupon "c2" none,
          .withCoupon "c3" none, .withCoupon "c4" none]).2
      = some .attributeError
    ∧ (Enroller.enroll_from_queue (fun _ _ => State.ERROR)
        (Enroller.init CoursesStore.empty)
        [.withCoupon "c0" none, .withCoupon "c1" none, .withCoupon "c2" none,
          .withCoupon "c3" none, .withCoupon "c4" none]).1.errors = []
    ∧ (Enroller.enroll_from_queue (fun _ _ => State.ERROR)
        (Enroller.init CoursesStore.empty)
        [.withCoupon "c0" none, .withCoupon "c1" none, .withCoupon "c2" none,
          .withCoupon "c3" none, .withCoupon "c4" none]).1.enroll_calls
      = [.withCoupon "c0" none] :=
  ⟨rfl, rfl, rfl⟩

/-- C4: the claim says a course whose every attempt yields `Error` is
attempted exactly 3 times and then recorded once in the final error
list.  On a queue holding that single course, the first `ERROR` outcome
makes `_handle_state` raise `AttributeError` before `_handle_error` can
run, so the course is attempted exactly once, never reattempted, and
never recorded in the error list. -/
theorem claim_C4 :
    (Enroller.enroll_from_queue (fun _ _ => State.ERROR)
        (Enroller.init CoursesStore.empty) [.withCoupon "d0" (some "k0")]).2
      = some .attributeError
    ∧ (Enroller.enroll_from_queue (fun _ _ => State.ERROR)
        (Enroller.init CoursesStore.empty)
        [.withCoupon "d0" (some "k0")]).1.enroll_calls.count
          (.withCoupon "d0" (some "k0")) = 1
    ∧ (Enroller.enroll_from_queue (fun _ _ => State.ERROR)
        (Enroller.init CoursesStore.empty)
        [.withCoupon "d0" (some "k0")]).1.errors = []
    ∧ (Enroller.enroll_from_queue (fun _ _ => State.ERROR)
        (Enroller.init CoursesStore.empty)
        [.withCoupon "d0" (some "k0")]).1.reattempt_queue = [] :=
  ⟨rfl, rfl, rfl, rfl⟩

/-- C5: the claim says a URL whose parsed identity the Course Store
already contains is dropped by the bridge.  `QueueManager` in this
revision takes no store (its constructor accepts no arguments, although
`__main__` passes one) and tests membership in the private `_seen` set,
which is created empty and never added to — so the course parsed from
this URL is forwarded even though a store containing it (via its
any-coupon entry) exists. -/
theorem claim_C5 :
    process_courses ["https://www.udemy.com/course/c1/?couponCode=X"]
      = [.withCoupon "c1" (some "X")]
    ∧ (CoursesStore.mk ["c1"] []).contains (.withCoupon "c1" (some "X"))
      = true :=
  ⟨rfl, rfl⟩

/-- C10 witness: the amended statement instantiated at a covered store
not holding the specific pair. -/
theorem claim_C10_witness :
    "u" ∈ (CoursesStore.mk ["u"] []).any_coupon
    ∧ Course.withCoupon "u" (some "c")
        ∉ (CoursesStore.mk ["u"] []).specific_coupon
    ∧ ((CoursesStore.mk ["u"] []).add (.withCoupon "u" (some "c"))
          = CoursesStore.mk ["u"] []
        ∧ ∃ s2, ((CoursesStore.mk ["u"] []).add
              (.withCoupon "u" (some "c"))).discard (.anyCoupon "u") = .ok s2
            ∧ s2.contains (.withCoupon "u" (some "c")) = false) :=
  ⟨by decide, by decide,
    claim_C10 (CoursesStore.mk ["u"] []) "u" (some "c")
      (by decide) (by decide)⟩

end UA
